import Mathlib

/-!
Verification of the computational core of `black_scholes_app.py`: the
Black-Scholes pricing function `black_scholes`, the Greeks function
`calculate_greeks`, and the payoff function `calculate_pnl`, embedded
shallowly over the real numbers.

Python's arithmetic exceptions (`ZeroDivisionError` from float division by
zero, `ValueError` from `math.log` / `math.sqrt` domain errors, and the
`UnboundLocalError` raised when `black_scholes` returns the never-assigned
`option_price` variable on an unrecognized `option_type`) are made explicit
as an `Except` error channel, since Lean's real-number division is total.
-/

open MeasureTheory

namespace BlackScholesApp

/-- Standard normal probability density (model of `scipy.stats.norm.pdf`). -/
noncomputable def normPdf (x : ℝ) : ℝ :=
  Real.exp (-(1 / 2) * x ^ 2) / Real.sqrt (2 * Real.pi)

/-- Standard normal cumulative distribution function
(model of `scipy.stats.norm.cdf`). -/
noncomputable def normCdf (x : ℝ) : ℝ :=
  (∫ t in Set.Iic x, Real.exp (-(1 / 2) * t ^ 2)) / Real.sqrt (2 * Real.pi)

theorem normPdf_nonneg (x : ℝ) : 0 ≤ normPdf x := by
  unfold normPdf
  positivity

theorem gauss_total : (∫ t : ℝ, Real.exp (-(1 / 2) * t ^ 2)) = Real.sqrt (2 * Real.pi) := by
  have h := integral_gaussian (1 / 2)
  have h2 : Real.pi / (1 / 2 : ℝ) = 2 * Real.pi := by ring
  rw [h, h2]

theorem gauss_integrable : Integrable (fun t : ℝ => Real.exp (-(1 / 2) * t ^ 2)) := by
  have h : (0 : ℝ) < 1 / 2 := by norm_num
  exact integrable_exp_neg_mul_sq h

theorem gauss_Iic_neg (x : ℝ) :
    (∫ t in Set.Iic (-x), Real.exp (-(1 / 2) * t ^ 2)) =
      ∫ t in Set.Ioi x, Real.exp (-(1 / 2) * t ^ 2) := by
  have h := integral_comp_neg_Iic (-x) (fun t : ℝ => Real.exp (-(1 / 2) * t ^ 2))
  simp only [neg_sq, neg_neg] at h
  exact h

theorem gauss_split (x : ℝ) :
    (∫ t in Set.Iic x, Real.exp (-(1 / 2) * t ^ 2)) +
      (∫ t in Set.Ioi x, Real.exp (-(1 / 2) * t ^ 2)) =
      ∫ t : ℝ, Real.exp (-(1 / 2) * t ^ 2) := by
  have h := setIntegral_union (μ := volume) (f := fun t : ℝ => Real.exp (-(1 / 2) * t ^ 2))
    (Set.Iic_disjoint_Ioi (le_refl x)) measurableSet_Ioi
    gauss_integrable.integrableOn gauss_integrable.integrableOn
  rw [Set.Iic_union_Ioi, setIntegral_univ] at h
  exact h.symm

theorem sqrt_two_pi_pos : 0 < Real.sqrt (2 * Real.pi) :=
  Real.sqrt_pos.mpr (by positivity)

/-- The symmetry identity `Φ(x) + Φ(−x) = 1` of the standard normal CDF. -/
theorem normCdf_add_neg (x : ℝ) : normCdf x + normCdf (-x) = 1 := by
  unfold normCdf
  rw [div_add_div_same, gauss_Iic_neg, gauss_split, gauss_total]
  exact div_self (ne_of_gt sqrt_two_pi_pos)

/-- The exceptions the Python functions can raise: `ZeroDivisionError` from
float division by zero, `ValueError` from a `math.log` or `math.sqrt` domain
error, and `UnboundLocalError` from `return option_price` when neither branch
of the `if`/`elif` in `black_scholes` assigned `option_price`. -/
inductive PyError where
  | zeroDivisionError : PyError
  | valueError : PyError
  | unboundLocal : PyError
  deriving DecidableEq

/-- `d1` as computed on line 9 of `black_scholes_app.py`:
`(math.log(S / K) + (r + 0.5 * sigma ** 2) * T) / (sigma * math.sqrt(T))`. -/
noncomputable def bs_d1 (S K T r sigma : ℝ) : ℝ :=
  (Real.log (S / K) + (r + 0.5 * sigma ^ 2) * T) / (sigma * Real.sqrt T)

/-- `d2` as computed on line 10 of `black_scholes_app.py`:
`d2 = d1 - sigma * math.sqrt(T)`. -/
noncomputable def bs_d2 (S K T r sigma : ℝ) : ℝ :=
  bs_d1 S K T r sigma - sigma * Real.sqrt T

/-- Shallow embedding of `black_scholes(S, K, T, r, sigma, option_type)`
(lines 8-17 of `black_scholes_app.py`), with Python's raise points made
explicit in evaluation order: `S / K` raises `ZeroDivisionError` when `K = 0`;
`math.log(S / K)` raises `ValueError` when `S / K ≤ 0`; `math.sqrt(T)` raises
`ValueError` when `T < 0`; the division by `sigma * math.sqrt(T)` raises
`ZeroDivisionError` when that product is zero; and an `option_type` that is
neither `'call'` nor `'put'` leaves `option_price` unassigned, so the final
`return` raises `UnboundLocalError`. -/
noncomputable def black_scholes (S K T r sigma : ℝ) (option_type : String) :
    Except PyError (ℝ × ℝ × ℝ) :=
  if K = 0 then .error .zeroDivisionError
  else if S / K ≤ 0 then .error .valueError
  else if T < 0 then .error .valueError
  else if sigma * Real.sqrt T = 0 then .error .zeroDivisionError
  else if option_type = "call" then
    .ok (S * normCdf (bs_d1 S K T r sigma) -
           K * Real.exp (-r * T) * normCdf (bs_d2 S K T r sigma),
         bs_d1 S K T r sigma, bs_d2 S K T r sigma)
  else if option_type = "put" then
    .ok (K * Real.exp (-r * T) * normCdf (-bs_d2 S K T r sigma) -
           S * normCdf (-bs_d1 S K T r sigma),
         bs_d1 S K T r sigma, bs_d2 S K T r sigma)
  else .error .unboundLocal

/-- Shallow embedding of `calculate_greeks(S, K, T, r, sigma)` (lines 20-29 of
`black_scholes_app.py`). It first calls `black_scholes(S, K, T, r, sigma,
'call')` for `d1` and `d2` (propagating any exception), then computes the six
Greeks; the divisions by `S * sigma * math.sqrt(T)` (gamma, line 24) and by
`2 * math.sqrt(T)` (theta, lines 25-26) raise `ZeroDivisionError` when the
denominator is zero. The result tuple is
`(delta_call, delta_put, gamma, theta_call, theta_put, vega)`. -/
noncomputable def calculate_greeks (S K T r sigma : ℝ) :
    Except PyError (ℝ × ℝ × ℝ × ℝ × ℝ × ℝ) :=
  match black_scholes S K T r sigma "call" with
  | .error e => .error e
  | .ok (_, d1, d2) =>
    if S * sigma * Real.sqrt T = 0 then .error .zeroDivisionError
    else if 2 * Real.sqrt T = 0 then .error .zeroDivisionError
    else
      .ok (normCdf d1,
           normCdf d1 - 1,
           normPdf d1 / (S * sigma * Real.sqrt T),
           -S * normPdf d1 * sigma / (2 * Real.sqrt T) -
             r * K * Real.exp (-r * T) * normCdf d2,
           -S * normPdf d1 * sigma / (2 * Real.sqrt T) +
             r * K * Real.exp (-r * T) * normCdf (-d2),
           S * normPdf d1 * Real.sqrt T)

/-- Shallow embedding of `calculate_pnl(stock_prices, strike_price, premium)`
(lines 32-35 of `black_scholes_app.py`). The numpy vectorized expressions
`np.maximum(0, stock_prices - strike_price) - premium` and
`np.maximum(0, strike_price - stock_prices) - premium` become elementwise
maps over the price list; the pair is `(pnl_call, pnl_put)`. -/
def calculate_pnl (stock_prices : List ℝ) (strike_price premium : ℝ) :
    List ℝ × List ℝ :=
  (stock_prices.map (fun s => max 0 (s - strike_price) - premium),
   stock_prices.map (fun s => max 0 (strike_price - s) - premium))

/-! Transcriptions of the spec's closed-form formulas (§4.2 and §4.3), used as
the second side of the refinement claims about `black_scholes` and
`calculate_greeks`. -/

/-- Spec §4.2: `d1 = (ln(S/K) + (r + 0.5·σ²)·T) / (σ·√T)`. -/
noncomputable def spec_d1 (S K T r sigma : ℝ) : ℝ :=
  (Real.log (S / K) + (r + 0.5 * sigma ^ 2) * T) / (sigma * Real.sqrt T)

/-- Spec §4.2: `d2 = d1 − σ·√T`. -/
noncomputable def spec_d2 (S K T r sigma : ℝ) : ℝ :=
  spec_d1 S K T r sigma - sigma * Real.sqrt T

/-- Spec §4.2: `callPrice = S·Φ(d1) − K·e^(−rT)·Φ(d2)`. -/
noncomputable def spec_callPrice (S K T r sigma : ℝ) : ℝ :=
  S * normCdf (spec_d1 S K T r sigma) -
    K * Real.exp (-r * T) * normCdf (spec_d2 S K T r sigma)

/-- Spec §4.2: `putPrice = K·e^(−rT)·Φ(−d2) − S·Φ(−d1)`. -/
noncomputable def spec_putPrice (S K T r sigma : ℝ) : ℝ :=
  K * Real.exp (-r * T) * normCdf (-spec_d2 S K T r sigma) -
    S * normCdf (-spec_d1 S K T r sigma)

/-- Spec §4.3: `deltaCall = Φ(d1)`. -/
noncomputable def spec_deltaCall (S K T r sigma : ℝ) : ℝ :=
  normCdf (spec_d1 S K T r sigma)

/-- Spec §4.3: `deltaPut = Φ(d1) − 1`. -/
noncomputable def spec_deltaPut (S K T r sigma : ℝ) : ℝ :=
  normCdf (spec_d1 S K T r sigma) - 1

/-- Spec §4.3: `gamma = φ(d1) / (S·σ·√T)`. -/
noncomputable def spec_gamma (S K T r sigma : ℝ) : ℝ :=
  normPdf (spec_d1 S K T r sigma) / (S * sigma * Real.sqrt T)

/-- Spec §4.3: `thetaCall = −S·φ(d1)·σ/(2√T) − r·K·e^(−rT)·Φ(d2)`. -/
noncomputable def spec_thetaCall (S K T r sigma : ℝ) : ℝ :=
  -S * normPdf (spec_d1 S K T r sigma) * sigma / (2 * Real.sqrt T) -
    r * K * Real.exp (-r * T) * normCdf (spec_d2 S K T r sigma)

/-- Spec §4.3: `thetaPut = −S·φ(d1)·σ/(2√T) + r·K·e^(−rT)·Φ(−d2)`. -/
noncomputable def spec_thetaPut (S K T r sigma : ℝ) : ℝ :=
  -S * normPdf (spec_d1 S K T r sigma) * sigma / (2 * Real.sqrt T) +
    r * K * Real.exp (-r * T) * normCdf (-spec_d2 S K T r sigma)

/-- Spec §4.3: `vega = S·φ(d1)·√T`. -/
noncomputable def spec_vega (S K T r sigma : ℝ) : ℝ :=
  S * normPdf (spec_d1 S K T r sigma) * Real.sqrt T

/-! Helper lemmas: evaluation of the embedded functions once the implicit
Python raise points are ruled out. -/

theorem black_scholes_unfold (S K T r sigma : ℝ) (ot : String)
    (hK : K ≠ 0) (hSK : 0 < S / K) (hT : 0 ≤ T)
    (hden : sigma * Real.sqrt T ≠ 0) :
    black_scholes S K T r sigma ot =
      if ot = "call" then
        .ok (S * normCdf (bs_d1 S K T r sigma) -
               K * Real.exp (-r * T) * normCdf (bs_d2 S K T r sigma),
             bs_d1 S K T r sigma, bs_d2 S K T r sigma)
      else if ot = "put" then
        .ok (K * Real.exp (-r * T) * normCdf (-bs_d2 S K T r sigma) -
               S * normCdf (-bs_d1 S K T r sigma),
             bs_d1 S K T r sigma, bs_d2 S K T r sigma)
      else .error .unboundLocal := by
  unfold black_scholes
  rw [if_neg hK, if_neg (not_le.mpr hSK), if_neg (not_lt.mpr hT), if_neg hden]

theorem black_scholes_call_eq (S K T r sigma : ℝ)
    (hS : 0 < S) (hK : 0 < K) (hT : 0 < T) (hsig : sigma ≠ 0) :
    black_scholes S K T r sigma "call" =
      .ok (spec_callPrice S K T r sigma, spec_d1 S K T r sigma,
           spec_d2 S K T r sigma) := by
  rw [black_scholes_unfold S K T r sigma "call" (ne_of_gt hK) (div_pos hS hK)
    (le_of_lt hT) (mul_ne_zero hsig (Real.sqrt_ne_zero'.mpr hT))]
  rw [if_pos rfl]
  rfl

theorem black_scholes_put_eq (S K T r sigma : ℝ)
    (hS : 0 < S) (hK : 0 < K) (hT : 0 < T) (hsig : sigma ≠ 0) :
    black_scholes S K T r sigma "put" =
      .ok (spec_putPrice S K T r sigma, spec_d1 S K T r sigma,
           spec_d2 S K T r sigma) := by
  rw [black_scholes_unfold S K T r sigma "put" (ne_of_gt hK) (div_pos hS hK)
    (le_of_lt hT) (mul_ne_zero hsig (Real.sqrt_ne_zero'.mpr hT))]
  rw [if_neg (by decide), if_pos rfl]
  rfl

theorem calculate_greeks_eq (S K T r sigma : ℝ)
    (hS : 0 < S) (hK : 0 < K) (hT : 0 < T) (hsig : sigma ≠ 0) :
    calculate_greeks S K T r sigma =
      .ok (spec_deltaCall S K T r sigma, spec_deltaPut S K T r sigma,
           spec_gamma S K T r sigma, spec_thetaCall S K T r sigma,
           spec_thetaPut S K T r sigma, spec_vega S K T r sigma) := by
  have hst : Real.sqrt T ≠ 0 := Real.sqrt_ne_zero'.mpr hT
  have h1 : S * sigma * Real.sqrt T ≠ 0 :=
    mul_ne_zero (mul_ne_zero (ne_of_gt hS) hsig) hst
  have h2 : (2 : ℝ) * Real.sqrt T ≠ 0 := mul_ne_zero two_ne_zero hst
  unfold calculate_greeks
  rw [black_scholes_call_eq S K T r sigma hS hK hT hsig]
  simp only [if_neg h1, if_neg h2]
  rfl

/-! The claims. -/

/-- C1: for every input with `S > 0`, `K > 0`, `T > 0`, `sigma > 0`,
`black_scholes` with kind `'call'` returns `(price, d1, d2)` with
`d1 = (ln(S/K) + (r + 0.5·σ²)·T)/(σ·√T)`, `d2 = d1 − σ·√T` and
`price = S·Φ(d1) − K·e^(−rT)·Φ(d2)`, and with kind `'put'` it returns
`price = K·e^(−rT)·Φ(−d2) − S·Φ(−d1)`, `Φ` the standard normal CDF. -/
theorem C1_pricing_formula (S K T r sigma : ℝ)
    (hS : 0 < S) (hK : 0 < K) (hT : 0 < T) (hsig : 0 < sigma) :
    black_scholes S K T r sigma "call" =
      .ok (spec_callPrice S K T r sigma, spec_d1 S K T r sigma,
           spec_d2 S K T r sigma) ∧
    black_scholes S K T r sigma "put" =
      .ok (spec_putPrice S K T r sigma, spec_d1 S K T r sigma,
           spec_d2 S K T r sigma) :=
  ⟨black_scholes_call_eq S K T r sigma hS hK hT (ne_of_gt hsig),
   black_scholes_put_eq S K T r sigma hS hK hT (ne_of_gt hsig)⟩

/-- Witness for C1 at `S = K = T = sigma = 1`, `r = 0`. -/
theorem C1_pricing_formula_witness :
    black_scholes 1 1 1 0 1 "call" =
      .ok (spec_callPrice 1 1 1 0 1, spec_d1 1 1 1 0 1, spec_d2 1 1 1 0 1) ∧
    black_scholes 1 1 1 0 1 "put" =
      .ok (spec_putPrice 1 1 1 0 1, spec_d1 1 1 1 0 1, spec_d2 1 1 1 0 1) :=
  C1_pricing_formula 1 1 1 0 1 one_pos one_pos one_pos one_pos

/-- C4: for every input with `S > 0`, `K > 0`, `T > 0`, `sigma > 0`,
`calculate_greeks` returns exactly the spec's six Greeks, built from the same
`d1`, `d2` as the pricing formula: `deltaCall = Φ(d1)`,
`deltaPut = Φ(d1) − 1`, `gamma = φ(d1)/(S·σ·√T)`,
`thetaCall = −S·φ(d1)·σ/(2√T) − r·K·e^(−rT)·Φ(d2)`,
`thetaPut = −S·φ(d1)·σ/(2√T) + r·K·e^(−rT)·Φ(−d2)`, `vega = S·φ(d1)·√T`. -/
theorem C4_greeks_formula (S K T r sigma : ℝ)
    (hS : 0 < S) (hK : 0 < K) (hT : 0 < T) (hsig : 0 < sigma) :
    calculate_greeks S K T r sigma =
      .ok (spec_deltaCall S K T r sigma, spec_deltaPut S K T r sigma,
           spec_gamma S K T r sigma, spec_thetaCall S K T r sigma,
           spec_thetaPut S K T r sigma, spec_vega S K T r sigma) :=
  calculate_greeks_eq S K T r sigma hS hK hT (ne_of_gt hsig)

/-- Witness for C4 at `S = K = T = sigma = 1`, `r = 0`. -/
theorem C4_greeks_formula_witness :
    calculate_greeks 1 1 1 0 1 =
      .ok (spec_deltaCall 1 1 1 0 1, spec_deltaPut 1 1 1 0 1,
           spec_gamma 1 1 1 0 1, spec_thetaCall 1 1 1 0 1,
           spec_thetaPut 1 1 1 0 1, spec_vega 1 1 1 0 1) :=
  C4_greeks_formula 1 1 1 0 1 one_pos one_pos one_pos one_pos

/-- C5: for every input with `S, K, T, sigma > 0` and `r ≥ 0`, the call price
minus the put price returned by `black_scholes` equals `S − K·e^(−rT)`
(put-call parity), and in particular equals `S − K` when `r = 0`. -/
theorem C5_put_call_parity (S K T r sigma : ℝ)
    (hS : 0 < S) (hK : 0 < K) (hT : 0 < T) (hsig : 0 < sigma) (hr : 0 ≤ r) :
    ∃ c p d1 d2,
      black_scholes S K T r sigma "call" = .ok (c, d1, d2) ∧
      black_scholes S K T r sigma "put" = .ok (p, d1, d2) ∧
      c - p = S - K * Real.exp (-r * T) ∧
      (r = 0 → c - p = S - K) := by
  have key : spec_callPrice S K T r sigma - spec_putPrice S K T r sigma =
      S - K * Real.exp (-r * T) := by
    have hd1 := normCdf_add_neg (spec_d1 S K T r sigma)
    have hd2 := normCdf_add_neg (spec_d2 S K T r sigma)
    unfold spec_callPrice spec_putPrice
    linear_combination S * hd1 - K * Real.exp (-r * T) * hd2
  exact ⟨spec_callPrice S K T r sigma, spec_putPrice S K T r sigma,
    spec_d1 S K T r sigma, spec_d2 S K T r sigma,
    black_scholes_call_eq S K T r sigma hS hK hT (ne_of_gt hsig),
    black_scholes_put_eq S K T r sigma hS hK hT (ne_of_gt hsig), key,
    fun h0 => by rw [key, h0]; simp⟩

/-- Witness for C5 at `S = K = T = sigma = 1`, `r = 0`. -/
theorem C5_put_call_parity_witness :
    ∃ c p d1 d2,
      black_scholes 1 1 1 0 1 "call" = .ok (c, d1, d2) ∧
      black_scholes 1 1 1 0 1 "put" = .ok (p, d1, d2) ∧
      c - p = 1 - 1 * Real.exp (-0 * 1) ∧
      ((0 : ℝ) = 0 → c - p = 1 - 1) :=
  C5_put_call_parity 1 1 1 0 1 one_pos one_pos one_pos one_pos le_rfl

/-- C6: for every input with `S, K, T, sigma > 0` and `r ≥ 0`, the
`delta_call` and `delta_put` returned by `calculate_greeks` satisfy
`delta_call − delta_put = 1`. -/
theorem C6_delta_parity (S K T r sigma : ℝ)
    (hS : 0 < S) (hK : 0 < K) (hT : 0 < T) (hsig : 0 < sigma) (hr : 0 ≤ r) :
    ∃ dc dp g tc tp v,
      calculate_greeks S K T r sigma = .ok (dc, dp, g, tc, tp, v) ∧
      dc - dp = 1 :=
  ⟨spec_deltaCall S K T r sigma, spec_deltaPut S K T r sigma,
   spec_gamma S K T r sigma, spec_thetaCall S K T r sigma,
   spec_thetaPut S K T r sigma, spec_vega S K T r sigma,
   calculate_greeks_eq S K T r sigma hS hK hT (ne_of_gt hsig),
   by unfold spec_deltaCall spec_deltaPut; ring⟩

/-- Witness for C6 at `S = K = T = sigma = 1`, `r = 0`. -/
theorem C6_delta_parity_witness :
    ∃ dc dp g tc tp v,
      calculate_greeks 1 1 1 0 1 = .ok (dc, dp, g, tc, tp, v) ∧
      dc - dp = 1 :=
  C6_delta_parity 1 1 1 0 1 one_pos one_pos one_pos one_pos le_rfl

/-- C7: for every input with `S, K, T, sigma > 0` and `r ≥ 0`, the `gamma`
and `vega` returned by `calculate_greeks` are both nonnegative. -/
theorem C7_gamma_vega_nonneg (S K T r sigma : ℝ)
    (hS : 0 < S) (hK : 0 < K) (hT : 0 < T) (hsig : 0 < sigma) (hr : 0 ≤ r) :
    ∃ dc dp g tc tp v,
      calculate_greeks S K T r sigma = .ok (dc, dp, g, tc, tp, v) ∧
      0 ≤ g ∧ 0 ≤ v := by
  refine ⟨spec_deltaCall S K T r sigma, spec_deltaPut S K T r sigma,
    spec_gamma S K T r sigma, spec_thetaCall S K T r sigma,
    spec_thetaPut S K T r sigma, spec_vega S K T r sigma,
    calculate_greeks_eq S K T r sigma hS hK hT (ne_of_gt hsig), ?_, ?_⟩
  · exact div_nonneg (normPdf_nonneg _) (by positivity)
  · exact mul_nonneg (mul_nonneg (le_of_lt hS) (normPdf_nonneg _))
      (Real.sqrt_nonneg T)

/-- Witness for C7 at `S = K = T = sigma = 1`, `r = 0`. -/
theorem C7_gamma_vega_nonneg_witness :
    ∃ dc dp g tc tp v,
      calculate_greeks 1 1 1 0 1 = .ok (dc, dp, g, tc, tp, v) ∧
      0 ≤ g ∧ 0 ≤ v :=
  C7_gamma_vega_nonneg 1 1 1 0 1 one_pos one_pos one_pos one_pos le_rfl

/-- C10: for every real `r`, including `r < 0`, with `S, K, T, sigma > 0` and
the kind `'call'` or `'put'`, both `black_scholes` and `calculate_greeks`
complete without any error: neither function validates the risk-free rate. -/
theorem C10_no_rate_validation (S K T r sigma : ℝ) (ot : String)
    (hS : 0 < S) (hK : 0 < K) (hT : 0 < T) (hsig : 0 < sigma)
    (hot : ot = "call" ∨ ot = "put") :
    (∃ v, black_scholes S K T r sigma ot = .ok v) ∧
    ∃ g, calculate_greeks S K T r sigma = .ok g := by
  constructor
  · rcases hot with h | h <;> subst h
    · exact ⟨_, black_scholes_call_eq S K T r sigma hS hK hT (ne_of_gt hsig)⟩
    · exact ⟨_, black_scholes_put_eq S K T r sigma hS hK hT (ne_of_gt hsig)⟩
  · exact ⟨_, calculate_greeks_eq S K T r sigma hS hK hT (ne_of_gt hsig)⟩

/-- Witness for C10 at `S = K = T = sigma = 1` and the negative rate
`r = -1`. -/
theorem C10_no_rate_validation_witness :
    (∃ v, black_scholes 1 1 1 (-1) 1 "call" = .ok v) ∧
    ∃ g, calculate_greeks 1 1 1 (-1) 1 = .ok g :=
  C10_no_rate_validation 1 1 1 (-1) 1 "call" one_pos one_pos one_pos one_pos
    (Or.inl rfl)

/-- C8: for every price sequence, strike `> 0` and premium, `calculate_pnl`
returns two sequences of the input's length, mirroring the input order, whose
`i`-th elements are `max 0 (sᵢ − strike) − premium` (call leg) and
`max 0 (strike − sᵢ) − premium` (put leg); at `sᵢ = strike` both legs equal
`−premium`. -/
theorem C8_pnl_pointwise (ps : List ℝ) (strike premium : ℝ)
    (hk : 0 < strike) :
    (calculate_pnl ps strike premium).1.length = ps.length ∧
    (calculate_pnl ps strike premium).2.length = ps.length ∧
    (∀ i : ℕ, ((calculate_pnl ps strike premium).1)[i]? =
      Option.map (fun s => max 0 (s - strike) - premium) ps[i]?) ∧
    (∀ i : ℕ, ((calculate_pnl ps strike premium).2)[i]? =
      Option.map (fun s => max 0 (strike - s) - premium) ps[i]?) ∧
    ∀ i : ℕ, ps[i]? = some strike →
      ((calculate_pnl ps strike premium).1)[i]? = some (-premium) ∧
      ((calculate_pnl ps strike premium).2)[i]? = some (-premium) := by
  refine ⟨List.length_map ps _, List.length_map ps _,
    fun i => List.getElem?_map _ ps i, fun i => List.getElem?_map _ ps i,
    fun i h => ⟨?_, ?_⟩⟩
  · rw [show (calculate_pnl ps strike premium).1 =
        ps.map (fun s => max 0 (s - strike) - premium) from rfl,
      List.getElem?_map _ ps i, h]
    simp
  · rw [show (calculate_pnl ps strike premium).2 =
        ps.map (fun s => max 0 (strike - s) - premium) from rfl,
      List.getElem?_map _ ps i, h]
    simp

/-- Witness for C8 at prices `[1, 2]`, strike `1`, premium `3`. -/
theorem C8_pnl_pointwise_witness :
    (calculate_pnl [1, 2] 1 3).1.length = ([1, 2] : List ℝ).length ∧
    (calculate_pnl [1, 2] 1 3).2.length = ([1, 2] : List ℝ).length ∧
    (∀ i : ℕ, ((calculate_pnl [1, 2] 1 3).1)[i]? =
      Option.map (fun s => max 0 (s - 1) - 3) ([1, 2] : List ℝ)[i]?) ∧
    (∀ i : ℕ, ((calculate_pnl [1, 2] 1 3).2)[i]? =
      Option.map (fun s => max 0 (1 - s) - 3) ([1, 2] : List ℝ)[i]?) ∧
    ∀ i : ℕ, ([1, 2] : List ℝ)[i]? = some 1 →
      ((calculate_pnl [1, 2] 1 3).1)[i]? = some (-3) ∧
      ((calculate_pnl [1, 2] 1 3).2)[i]? = some (-3) :=
  C8_pnl_pointwise [1, 2] 1 3 one_pos

/-- C9: for every ascending price sequence, strike `> 0` and premium, the
call-leg P&L sequence of `calculate_pnl` is monotonically non-decreasing and
the put-leg sequence is monotonically non-increasing. -/
theorem C9_pnl_monotone (ps : List ℝ) (strike premium : ℝ)
    (hk : 0 < strike) (hs : ps.Sorted (· ≤ ·)) :
    (calculate_pnl ps strike premium).1.Sorted (· ≤ ·) ∧
    (calculate_pnl ps strike premium).2.Sorted (fun a b => b ≤ a) := by
  constructor
  · exact List.Pairwise.map _ (fun a b hab =>
      sub_le_sub_right (max_le_max le_rfl (sub_le_sub_right hab strike))
        premium) hs
  · exact List.Pairwise.map _ (fun a b hab =>
      sub_le_sub_right (max_le_max le_rfl (sub_le_sub_left hab strike))
        premium) hs

/-- Witness for C9 at the ascending prices `[1, 2]`, strike `1`,
premium `3`. -/
theorem C9_pnl_monotone_witness :
    (calculate_pnl [1, 2] 1 3).1.Sorted (· ≤ ·) ∧
    (calculate_pnl [1, 2] 1 3).2.Sorted (fun a b => b ≤ a) :=
  C9_pnl_monotone [1, 2] 1 3 one_pos (by norm_num [List.sorted_cons])

/-- C2 counterexample: at `S = K = T = 1`, `r = 0`, `sigma = -1` — an input
in the claimed invalid region `sigma ≤ 0` — `black_scholes` does not fail at
all: it returns a normal result. -/
theorem C2_counterexample : (black_scholes 1 1 1 0 (-1) "call").isOk = true := by
  rw [black_scholes_unfold 1 1 1 0 (-1) "call" one_ne_zero (by norm_num)
    zero_le_one (by rw [Real.sqrt_one]; norm_num)]
  rw [if_pos rfl]
  rfl

/-- C2 amended: `black_scholes` and `calculate_greeks` perform no input
validation and have no `InvalidInput` error. When `S > 0` and `K ≤ 0`,
`T ≤ 0` or `sigma = 0` (and likewise when `K > 0` and `S ≤ 0`), they fail by
raising a built-in Python arithmetic exception (`ZeroDivisionError` or
`ValueError`), so no number is silently returned there; but when `sigma < 0`
with the other parameters valid (or when `S` and `K` are both negative) they
return a result with no failure whatsoever. -/
theorem C2_amended_no_validation (S K T r sigma : ℝ) (ot : String)
    (h : (0 < S ∧ (K ≤ 0 ∨ T ≤ 0 ∨ sigma = 0)) ∨ (0 < K ∧ S ≤ 0)) :
    (∃ e, black_scholes S K T r sigma ot = .error e) ∧
    ∃ e, calculate_greeks S K T r sigma = .error e := by
  have hcontr : ¬K = 0 → ¬S / K ≤ 0 → ¬T < 0 → sigma * Real.sqrt T = 0 ∨
      False := by
    intro h1 h2 h3
    rcases h with ⟨hS, hK0 | hT0 | hs0⟩ | ⟨hK, hS0⟩
    · exact Or.inr (h2 (le_of_lt
        (div_neg_of_pos_of_neg hS (lt_of_le_of_ne hK0 h1))))
    · have hT : T = 0 := le_antisymm hT0 (not_lt.mp h3)
      exact Or.inl (by rw [hT, Real.sqrt_zero, mul_zero])
    · exact Or.inl (by rw [hs0, zero_mul])
    · exact Or.inr (h2 (div_nonpos_of_nonpos_of_nonneg hS0 (le_of_lt hK)))
  have err : ∀ ot₂ : String, ∃ e, black_scholes S K T r sigma ot₂ = .error e := by
    intro ot₂
    unfold black_scholes
    split_ifs with h1 h2 h3 h4 h5 h6
    · exact ⟨_, rfl⟩
    · exact ⟨_, rfl⟩
    · exact ⟨_, rfl⟩
    · exact ⟨_, rfl⟩
    · rcases hcontr h1 h2 h3 with hc | hc
      · exact absurd hc h4
      · exact hc.elim
    · rcases hcontr h1 h2 h3 with hc | hc
      · exact absurd hc h4
      · exact hc.elim
    · exact ⟨_, rfl⟩
  obtain ⟨e, he⟩ := err "call"
  refine ⟨err ot, e, ?_⟩
  unfold calculate_greeks
  rw [he]

/-- Witness for the amended C2 at `S = 1`, `K = 1`, `T = 1`, `r = 0`,
`sigma = 0`. -/
theorem C2_amended_no_validation_witness :
    (∃ e, black_scholes 1 1 1 0 0 "call" = .error e) ∧
    ∃ e, calculate_greeks 1 1 1 0 0 = .error e :=
  C2_amended_no_validation 1 1 1 0 0 "call"
    (Or.inl ⟨one_pos, Or.inr (Or.inr rfl)⟩)

/-- C3 counterexample: two different unrecognized kinds produce the identical
failure — the `UnboundLocalError` from returning the never-assigned
`option_price` — so the failure does not identify the unrecognized kind. -/
theorem C3_counterexample :
    black_scholes 1 1 1 0 1 "x" = Except.error PyError.unboundLocal ∧
    black_scholes 1 1 1 0 1 "y" = Except.error PyError.unboundLocal := by
  constructor <;>
  · rw [black_scholes_unfold 1 1 1 0 1 _ one_ne_zero (by norm_num) zero_le_one
      (by rw [Real.sqrt_one]; norm_num)]
    rw [if_neg (by decide), if_neg (by decide)]

/-- C3 amended: for valid numeric inputs and an `option_type` that is neither
`'call'` nor `'put'`, `black_scholes` does fail, but with the
`UnboundLocalError` raised by returning the never-assigned `option_price`
variable — the same failure for every unrecognized kind — not with an
`InvalidOptionKind` error identifying the kind. -/
theorem C3_amended_unbound_local (S K T r sigma : ℝ) (ot : String)
    (hS : 0 < S) (hK : 0 < K) (hT : 0 < T) (hsig : 0 < sigma)
    (hc : ot ≠ "call") (hp : ot ≠ "put") :
    black_scholes S K T r sigma ot = .error .unboundLocal := by
  rw [black_scholes_unfold S K T r sigma ot (ne_of_gt hK) (div_pos hS hK)
    (le_of_lt hT) (mul_ne_zero (ne_of_gt hsig) (Real.sqrt_ne_zero'.mpr hT))]
  rw [if_neg hc, if_neg hp]

/-- Witness for the amended C3 at `S = K = T = sigma = 1`, `r = 0`,
`option_type = "straddle"`. -/
theorem C3_amended_unbound_local_witness :
    black_scholes 1 1 1 0 1 "straddle" = .error .unboundLocal :=
  C3_amended_unbound_local 1 1 1 0 1 "straddle" one_pos one_pos one_pos
    one_pos (by decide) (by decide)

end BlackScholesApp
